import Mathlib

/-
Verification development for the LS-8 v2.0 emulator (the fullest CPU variant:
flags, stack, CALL/RET, CMP and conditional jumps).

JavaScript numbers are modelled as rationals extended with the special values
Infinity, -Infinity, NaN and undefined; negative zero is not distinguished.
Every arithmetic step this machine performs on byte inputs other than
division is exact in binary64, so those operations are modelled exactly;
division, the one place IEEE-754 rounding is observable, rounds its result to
the nearest binary64 value (ties to even) exactly as JS does, computed here
over the rationals. Bitwise operators follow the JS ToUint32/ToInt32
conversions: truncate toward zero, wrap modulo 2^32, operate on the 32-bit
pattern, reinterpret as signed.
-/

namespace LS8

/-- A JavaScript numeric value: an exact rational, one of the two infinities,
NaN, or undefined (the value of a missing argument or absent return). -/
inductive Value where
  | num (q : ℚ)
  | inf
  | negInf
  | nan
  | undef
deriving DecidableEq

/-- Truncation toward zero of a rational, as in the JS ToInt32/ToUint32
conversions. -/
def qtrunc (q : ℚ) : ℤ := if q < 0 then -(Int.floor (-q)) else Int.floor q

/-- JS ToUint32: non-finite values and NaN/undefined become 0; finite values
are truncated toward zero and wrapped modulo 2^32. -/
def toUint32 : Value → ℕ
  | .num q => (qtrunc q % 4294967296).toNat
  | _ => 0

/-- Reinterpret a 32-bit unsigned pattern as a signed 32-bit integer. -/
def int32ofU (u : ℕ) : ℤ := if u < 2147483648 then (u : ℤ) else (u : ℤ) - 4294967296

/-- JS ToInt32. -/
def toInt32 (v : Value) : ℤ := int32ofU (toUint32 v)

/-- Embed an integer back into the value space. -/
def Value.ofInt (n : ℤ) : Value := .num (n : ℚ)

/-- JS bitwise AND. -/
def jsAnd (a b : Value) : Value := .ofInt (int32ofU (toUint32 a &&& toUint32 b))

/-- JS bitwise OR. -/
def jsOr (a b : Value) : Value := .ofInt (int32ofU (toUint32 a ||| toUint32 b))

/-- JS bitwise XOR. -/
def jsXor (a b : Value) : Value := .ofInt (int32ofU (toUint32 a ^^^ toUint32 b))

/-- JS bitwise complement: XOR with the all-ones 32-bit pattern, signed. -/
def jsNot (a : Value) : Value := .ofInt (int32ofU (toUint32 a ^^^ 4294967295))

/-- JS left shift. -/
def jsShl (a b : Value) : Value :=
  .ofInt (int32ofU ((toUint32 a <<< (toUint32 b % 32)) % 4294967296))

/-- JS signed (arithmetic) right shift: floor division of the signed value by
the corresponding power of two. -/
def jsShr (a b : Value) : Value := .ofInt ((toInt32 a).fdiv (2 ^ (toUint32 b % 32)))

/-- JS addition. -/
def jsAdd : Value → Value → Value
  | .num a, .num b => .num (a + b)
  | .num _, .inf => .inf
  | .inf, .num _ => .inf
  | .inf, .inf => .inf
  | .num _, .negInf => .negInf
  | .negInf, .num _ => .negInf
  | .negInf, .negInf => .negInf
  | _, _ => .nan

/-- JS subtraction. -/
def jsSub : Value → Value → Value
  | .num a, .num b => .num (a - b)
  | .num _, .inf => .negInf
  | .inf, .num _ => .inf
  | .inf, .negInf => .inf
  | .num _, .negInf => .inf
  | .negInf, .num _ => .negInf
  | .negInf, .inf => .negInf
  | _, _ => .nan

/-- JS multiplication. -/
def jsMul : Value → Value → Value
  | .num a, .num b => .num (a * b)
  | .num a, .inf => if 0 < a then .inf else if a < 0 then .negInf else .nan
  | .inf, .num b => if 0 < b then .inf else if b < 0 then .negInf else .nan
  | .num a, .negInf => if 0 < a then .negInf else if a < 0 then .inf else .nan
  | .negInf, .num b => if 0 < b then .negInf else if b < 0 then .inf else .nan
  | .inf, .inf => .inf
  | .negInf, .negInf => .inf
  | .inf, .negInf => .negInf
  | .negInf, .inf => .negInf
  | _, _ => .nan

/-- Halving step for the floor of log2: counts how many times the input can
be halved before reaching 1, over a fixed number of steps. -/
def log2aux : ℕ → ℕ → ℕ
  | 0, _ => 0
  | f + 1, n => if n ≤ 1 then 0 else log2aux f (n / 2) + 1

/-- Floor of log2 of a positive natural, exact below 2^4097 (every numerator
and denominator arising from a quotient of two binary64 values is far below
this). -/
def nlog2 (n : ℕ) : ℕ := log2aux 4096 n

/-- Decide whether 2^k is at most n/d for positive d, staying within the
integers. -/
def qle2pow (k : ℤ) (n d : ℕ) : Bool :=
  if 0 ≤ k then decide (d * 2 ^ k.toNat ≤ n) else decide (d ≤ n * 2 ^ (-k).toNat)

/-- Round a rational to the nearest IEEE-754 binary64 value (round to
nearest, ties to even), computed exactly over the rationals: the magnitude is
scaled by the power of two of its unit in the last place (the floor-log2
minus 52, clamped at the subnormal floor -1074), the scaled value is rounded
to an integer significand with ties going to the even neighbour, and a result
reaching 2^1024 overflows to the signed infinity. Negative zero is not
distinguished. Exact for every rational whose reduced numerator and
denominator are below 2^4096, which covers every quotient of two binary64
values. -/
def roundB64 (q : ℚ) : Value :=
  if q = 0 then Value.num 0
  else
    let n : ℕ := q.num.natAbs
    let d : ℕ := q.den
    let k0 : ℤ := (nlog2 n : ℤ) - (nlog2 d : ℤ) - 1
    let k : ℤ := if qle2pow (k0 + 1) n d then k0 + 1 else k0
    let e : ℤ := max (k - 52) (-1074)
    let N : ℕ := n * 2 ^ (-e).toNat
    let D : ℕ := d * 2 ^ e.toNat
    let n0 : ℕ := N / D
    let r : ℕ := N % D
    let m : ℕ :=
      if 2 * r < D then n0
      else if D < 2 * r then n0 + 1
      else if n0 % 2 = 0 then n0 else n0 + 1
    let mag : ℚ :=
      if 0 ≤ e then ((m * 2 ^ e.toNat : ℕ) : ℚ)
      else ((m : ℕ) : ℚ) / ((2 ^ (-e).toNat : ℕ) : ℚ)
    if 0 ≤ e ∧ 2 ^ 1024 ≤ m * 2 ^ e.toNat then
      (if q < 0 then Value.negInf else Value.inf)
    else Value.num (if q < 0 then -mag else mag)

/-- JS division: a nonzero finite divisor gives the binary64 rounding of the
quotient (IEEE division of two representable values is the correctly rounded
exact quotient); a zero divisor gives a signed infinity (or NaN for 0/0). -/
def jsDiv : Value → Value → Value
  | .num a, .num b =>
      if b = 0 then (if 0 < a then .inf else if a < 0 then .negInf else .nan)
      else roundB64 (a / b)
  | .num _, .inf => .num 0
  | .num _, .negInf => .num 0
  | .inf, .num b => if b < 0 then .negInf else .inf
  | .negInf, .num b => if b < 0 then .inf else .negInf
  | _, _ => .nan

/-- JS remainder: truncating remainder with the sign of the dividend; a zero
divisor gives NaN. -/
def jsMod : Value → Value → Value
  | .num a, .num b => if b = 0 then .nan else .num (a - b * (qtrunc (a / b) : ℚ))
  | .num a, .inf => .num a
  | .num a, .negInf => .num a
  | _, _ => .nan

/-- JS strict equality on these values (NaN is not equal to itself). -/
def jsStrictEq : Value → Value → Bool
  | .num a, .num b => decide (a = b)
  | .inf, .inf => true
  | .negInf, .negInf => true
  | .undef, .undef => true
  | _, _ => false

/-- JS less-than on numbers (false whenever NaN or undefined is involved). -/
def jsLt : Value → Value → Bool
  | .num a, .num b => decide (a < b)
  | .num _, .inf => true
  | .negInf, .num _ => true
  | .negInf, .inf => true
  | _, _ => false

/-- JS greater-than. -/
def jsGt (a b : Value) : Bool := jsLt b a

/-- JS truthiness of a value used as an `if` condition. -/
def truthy : Value → Bool
  | .num q => decide (q ≠ 0)
  | .inf => true
  | .negInf => true
  | _ => false

/-- Console messages the engine can log (other than `PRN` output lines). -/
inductive LogMsg where
  | invalidInstruction (ir : Value)
  | divByZero
deriving DecidableEq

/-- The instructions present in the branch table. -/
inductive Instr where
  | HLT
  | LD
  | LDI
  | PRN
  | ST
  | NOP
  | ADD
  | SUB
  | MUL
  | DIV
  | MOD
  | INC
  | DEC
  | AND
  | OR
  | XOR
  | NOT
  | PUSH
  | POP
  | CALL
  | RET
  | CMP
  | JMP
  | JEQ
  | JGT
  | JLT
  | JNE
deriving DecidableEq

/-- The symbolic operation tags accepted by `alu` (strings in the source). -/
inductive AluOp where
  | ADD
  | SUB
  | MUL
  | DIV
  | MOD
  | INC
  | DEC
  | AND
  | OR
  | XOR
  | NOT
  | CMP
deriving DecidableEq

/-- The CPU state: general-purpose register file (a JS array indexed by the
operand value), the special registers PC/IR/FL, the halted flag (the cleared
clock after `stopClock`), the `PRN` output lines, and the error log.

The RAM is modelled from the spec: the Memory collaborator (`read(address) ->
byte`, `write(address, byte)`) is not part of the given source, so it is
modelled as a total map from JS values to stored values, with `write` as a
pointwise update. -/
structure CPU where
  ram : Value → Value
  reg : Value → Value
  PC : Value
  IR : Value
  FL : Value
  halted : Bool
  output : List Value
  log : List LogMsg

/-- Pointwise update of a map, at a JS-value key. -/
def setFn (f : Value → Value) (k v : Value) : Value → Value :=
  fun x => if x = k then v else f x

/-- Read a general-purpose register by its (JS-value) index. -/
def CPU.getReg (s : CPU) (i : Value) : Value := s.reg i

/-- Write a general-purpose register by its (JS-value) index. -/
def CPU.setReg (s : CPU) (i v : Value) : CPU := { s with reg := setFn s.reg i v }

/-- Write a RAM cell. -/
def CPU.ramWrite (s : CPU) (a v : Value) : CPU := { s with ram := setFn s.ram a v }

/-- The source's setFlag(flag, value): set or clear one bit of the flags
register using JS bitwise operations. -/
def CPU.setFlag (s : CPU) (flag : ℕ) (b : Bool) : CPU :=
  if b then { s with FL := jsOr s.FL (jsShl (.num 1) (.num (flag : ℚ))) }
  else { s with FL := jsAnd s.FL (jsNot (jsShl (.num 1) (.num (flag : ℚ)))) }

/-- The source's getFlag(flag): mask out one bit of the flags register and
shift it down. -/
def CPU.getFlag (s : CPU) (flag : ℕ) : Value :=
  jsShr (jsAnd s.FL (jsShl (.num 1) (.num (flag : ℚ)))) (.num (flag : ℚ))

/-- The ALU: writes the result back into the first operand register, except
for CMP which only sets flags. ADD/SUB/MUL/INC/DEC mask with `& 255`; DIV,
MOD, AND, OR, XOR and NOT do not. -/
def CPU.alu (s : CPU) (op : AluOp) (regA regB : Value) : CPU :=
  match op with
  | .ADD => s.setReg regA (jsAnd (jsAdd (s.getReg regA) (s.getReg regB)) (.num 255))
  | .SUB => s.setReg regA (jsAnd (jsSub (s.getReg regA) (s.getReg regB)) (.num 255))
  | .MUL => s.setReg regA (jsAnd (jsMul (s.getReg regA) (s.getReg regB)) (.num 255))
  | .DIV => s.setReg regA (jsDiv (s.getReg regA) (s.getReg regB))
  | .MOD => s.setReg regA (jsMod (s.getReg regA) (s.getReg regB))
  | .INC => s.setReg regA (jsAnd (jsAdd (s.getReg regA) (.num 1)) (.num 255))
  | .DEC => s.setReg regA (jsAnd (jsSub (s.getReg regA) (.num 1)) (.num 255))
  | .AND => s.setReg regA (jsAnd (s.getReg regA) (s.getReg regB))
  | .OR => s.setReg regA (jsOr (s.getReg regA) (s.getReg regB))
  | .XOR => s.setReg regA (jsXor (s.getReg regA) (s.getReg regB))
  | .NOT => s.setReg regA (jsNot (s.getReg regA))
  | .CMP =>
      let s1 := s.setFlag 0 (jsStrictEq (s.getReg regA) (s.getReg regB))
      let s2 := s1.setFlag 1 (jsGt (s1.getReg regA) (s1.getReg regB))
      s2.setFlag 2 (jsLt (s2.getReg regA) (s2.getReg regB))

/-- The source's _push(value): decrement the stack pointer (register 7)
through the ALU, then store the value at the new stack-pointer address. -/
def CPU._push (s : CPU) (value : Value) : CPU :=
  let s1 := s.alu .DEC (.num 7) .undef
  s1.ramWrite (s1.getReg (.num 7)) value

/-- The source's _pop(): read the value at the stack-pointer address, then
increment the stack pointer through the ALU. -/
def CPU._pop (s : CPU) : CPU × Value :=
  let value := s.ram (s.getReg (.num 7))
  (s.alu .INC (.num 7) .undef, value)

/-- One instruction handler: takes the two eagerly fetched operand bytes and
returns the updated state together with the handler's JS return value
(`undef` when the handler has no return statement). -/
def CPU.execInstr (s : CPU) (i : Instr) (a b : Value) : CPU × Value :=
  match i with
  | .HLT => ({ s with halted := true }, .undef)
  | .LD => (s.setReg a (s.ram (s.getReg b)), .undef)
  | .LDI => (s.setReg a b, .undef)
  | .PRN => ({ s with output := s.output ++ [s.getReg a] }, .undef)
  | .ST => (s.ramWrite (s.getReg a) (s.getReg b), .undef)
  | .NOP => (s, .undef)
  | .ADD => (s.alu .ADD a b, .undef)
  | .SUB => (s.alu .SUB a b, .undef)
  | .MUL => (s.alu .MUL a b, .undef)
  | .DIV =>
      let s1 := if jsStrictEq (s.getReg b) (.num 0)
        then { s with log := s.log ++ [.divByZero], halted := true } else s
      (s1.alu .DIV a b, .undef)
  | .MOD =>
      let s1 := if jsStrictEq (s.getReg b) (.num 0)
        then { s with log := s.log ++ [.divByZero], halted := true } else s
      (s1.alu .MOD a b, .undef)
  | .INC => (s.alu .INC a .undef, .undef)
  | .DEC => (s.alu .DEC a .undef, .undef)
  | .AND => (s.alu .AND a b, .undef)
  | .OR => (s.alu .OR a b, .undef)
  | .XOR => (s.alu .XOR a b, .undef)
  | .NOT => (s.alu .NOT a .undef, .undef)
  | .PUSH => (s._push (s.getReg a), .undef)
  | .POP =>
      let p := s._pop
      (p.1.setReg a p.2, .undef)
  | .CALL =>
      let s1 := s._push (jsAdd s.PC (.num 2))
      (s1, s1.getReg a)
  | .RET =>
      let p := s._pop
      (p.1, p.2)
  | .CMP => (s.alu .CMP a b, .undef)
  | .JMP => (s, s.getReg a)
  | .JEQ => (s, if truthy (s.getFlag 0) then s.getReg a else .undef)
  | .JGT => (s, if truthy (s.getFlag 1) then s.getReg a else .undef)
  | .JLT => (s, if truthy (s.getFlag 2) then s.getReg a else .undef)
  | .JNE => (s, if truthy (s.getFlag 0) then .undef else s.getReg a)

/-- Branch-table lookup on a numeric opcode key. -/
def decodeNum (q : ℚ) : Option Instr :=
  if q = 1 then some .HLT
  else if q = 152 then some .LD
  else if q = 153 then some .LDI
  else if q = 67 then some .PRN
  else if q = 154 then some .ST
  else if q = 0 then some .NOP
  else if q = 168 then some .ADD
  else if q = 169 then some .SUB
  else if q = 170 then some .MUL
  else if q = 171 then some .DIV
  else if q = 172 then some .MOD
  else if q = 120 then some .INC
  else if q = 121 then some .DEC
  else if q = 179 then some .AND
  else if q = 177 then some .OR
  else if q = 178 then some .XOR
  else if q = 112 then some .NOT
  else if q = 77 then some .PUSH
  else if q = 76 then some .POP
  else if q = 72 then some .CALL
  else if q = 9 then some .RET
  else if q = 160 then some .CMP
  else if q = 80 then some .JMP
  else if q = 81 then some .JEQ
  else if q = 84 then some .JGT
  else if q = 83 then some .JLT
  else if q = 82 then some .JNE
  else none

/-- Branch-table lookup: only numeric keys are present in the table. -/
def decode : Value → Option Instr
  | .num q => decodeNum q
  | _ => none

/-- One fetch-decode-execute cycle: fetch into IR, look up the handler (halt
and log on a miss, leaving the PC untouched), eagerly read the two operand
bytes, run the handler, then either jump to its returned address or advance
the PC by `1 + ((IR >> 6) & 0b11)`. -/
def CPU.tick (s : CPU) : CPU :=
  let s0 : CPU := { s with IR := s.ram s.PC }
  match decode s0.IR with
  | none => { s0 with log := s0.log ++ [.invalidInstruction s0.IR], halted := true }
  | some i =>
      let operandA := s0.ram (jsAdd s0.PC (.num 1))
      let operandB := s0.ram (jsAdd s0.PC (.num 2))
      let p := s0.execInstr i operandA operandB
      if p.2 = Value.undef then
        let count := jsAnd (jsShr p.1.IR (.num 6)) (.num 3)
        { p.1 with PC := jsAdd p.1.PC (jsAdd count (.num 1)) }
      else
        { p.1 with PC := p.2 }

/-- The driver loop: tick until halted (or until the fuel runs out). -/
def CPU.run (s : CPU) : ℕ → CPU
  | 0 => s
  | n + 1 => if s.halted then s else CPU.run s.tick n

/-- The register file at construction: indices 0 to 6 hold 0, the stack
pointer (index 7) holds 0xF4, every other key is undefined. -/
def initReg : Value → Value := fun v =>
  if v = Value.num 7 then Value.num 244
  else if v = Value.num 0 ∨ v = Value.num 1 ∨ v = Value.num 2 ∨ v = Value.num 3 ∨
      v = Value.num 4 ∨ v = Value.num 5 ∨ v = Value.num 6 then Value.num 0
  else Value.undef

/-- A freshly constructed CPU bound to the given RAM contents. -/
def initCPU (ram : Value → Value) : CPU :=
  { ram := ram, reg := initReg, PC := .num 0, IR := .num 0, FL := .num 0,
    halted := false, output := [], log := [] }

/-- The loaded program `LDI R0,5; LDI R1,0; DIV R0,R1; PRN R0`
(bytes 153,0,5, 153,1,0, 171,0,1, 67,0; unused cells read 0). -/
def divZeroProgram : Value → Value := fun v =>
  if v = Value.num 0 then Value.num 153
  else if v = Value.num 1 then Value.num 0
  else if v = Value.num 2 then Value.num 5
  else if v = Value.num 3 then Value.num 153
  else if v = Value.num 4 then Value.num 1
  else if v = Value.num 5 then Value.num 0
  else if v = Value.num 6 then Value.num 171
  else if v = Value.num 7 then Value.num 0
  else if v = Value.num 8 then Value.num 1
  else if v = Value.num 9 then Value.num 67
  else if v = Value.num 10 then Value.num 0
  else Value.num 0

/-- RAM holding `CALL R7` at address 0 (bytes 72, 7; unused cells read 0). -/
def callR7Ram : Value → Value := fun v =>
  if v = Value.num 0 then Value.num 72
  else if v = Value.num 1 then Value.num 7
  else Value.num 0

/-- A fresh CPU about to execute `CALL R7`: register 7 (the stack pointer)
holds 244, which is also the jump target the claim expects. -/
def callR7State : CPU := initCPU callR7Ram

/-- A CPU whose program counter sits at address 254 with RAM holding the
two-operand opcode `LDI` (153) in every cell. -/
def highPCState : CPU :=
  { ram := fun _ => Value.num 153, reg := initReg, PC := .num 254, IR := .num 0,
    FL := .num 0, halted := false, output := [], log := [] }

/-- RAM holding the byte 2 (an opcode absent from the branch table) in every
cell. -/
def invalidOpcodeState : CPU := initCPU (fun _ => Value.num 2)

/-- A small state for witnesses: `NOP` everywhere in RAM, registers 0 and 1
holding 10 and 3, register 7 holding 244, flags 0. -/
def witnessState : CPU :=
  { ram := fun _ => Value.num 0,
    reg := fun v =>
      if v = Value.num 0 then Value.num 10
      else if v = Value.num 1 then Value.num 3
      else if v = Value.num 7 then Value.num 244
      else Value.num 0,
    PC := .num 0, IR := .num 0, FL := .num 0,
    halted := false, output := [], log := [] }

/-- RAM for the amended CALL/RET round trip: `CALL R0` at address 0 and `RET`
at the target address 100. -/
def callRetRam : Value → Value := fun v =>
  if v = Value.num 0 then Value.num 72
  else if v = Value.num 1 then Value.num 0
  else if v = Value.num 100 then Value.num 9
  else Value.num 0

/-- A fresh-style CPU about to execute `CALL R0` with register 0 holding the
target address 100 and the stack pointer at 244. -/
def callRetState : CPU :=
  { ram := callRetRam,
    reg := fun v =>
      if v = Value.num 0 then Value.num 100
      else if v = Value.num 7 then Value.num 244
      else Value.num 0,
    PC := .num 0, IR := .num 0, FL := .num 0,
    halted := false, output := [], log := [] }

/-- Truncation agrees with the identity on integers. -/
theorem qtrunc_intCast (n : ℤ) : qtrunc (n : ℚ) = n := by
  unfold qtrunc
  split
  · rw [← Int.cast_neg, Int.floor_intCast]
    ring
  · exact Int.floor_intCast n

/-- Truncation agrees with the identity on naturals. -/
theorem qtrunc_natCast (n : ℕ) : qtrunc (n : ℚ) = n := by
  have h : ((n : ℚ)) = ((n : ℤ) : ℚ) := by push_cast; ring
  rw [h, qtrunc_intCast]

/-- ToUint32 of an integer value wraps it modulo 2^32. -/
theorem toUint32_int (n : ℤ) : toUint32 (Value.num (n : ℚ)) = (n % 4294967296).toNat := by
  simp [toUint32, qtrunc_intCast]

/-- ToUint32 of a natural value wraps it modulo 2^32. -/
theorem toUint32_nat (n : ℕ) : toUint32 (Value.num (n : ℚ)) = n % 4294967296 := by
  have h : ((n : ℚ)) = ((n : ℤ) : ℚ) := by push_cast; ring
  rw [h, toUint32_int]
  omega

/-- ToUint32 is the identity on naturals below 2^32. -/
theorem toUint32_small (n : ℕ) (h : n < 4294967296) : toUint32 (Value.num (n : ℚ)) = n := by
  rw [toUint32_nat]
  omega

/-- Below 2^31 the signed reinterpretation is the identity. -/
theorem int32ofU_small (u : ℕ) (h : u < 2147483648) : int32ofU u = (u : ℤ) := by
  simp [int32ofU, h]

/-- Bitwise AND with 255 is reduction modulo 256. -/
theorem land_255 (u : ℕ) : u &&& 255 = u % 256 := by
  have h := Nat.and_pow_two_sub_one_eq_mod u 8
  norm_num at h
  exact h

/-- The source's `x & 255` mask on an integer value is mathematical reduction
modulo 256. -/
theorem jsAnd_255_int (n : ℤ) :
    jsAnd (Value.num (n : ℚ)) (Value.num 255) = Value.num ((n % 256 : ℤ) : ℚ) := by
  have h255 : toUint32 (Value.num 255) = 255 := by
    have h := toUint32_small 255 (by norm_num)
    norm_num at h
    exact h
  unfold jsAnd
  rw [toUint32_int, h255, land_255]
  have hmod : ((n % 4294967296).toNat) % 256 = (n % 256).toNat := by omega
  rw [hmod, int32ofU_small _ (by omega)]
  unfold Value.ofInt
  rw [show (((n % 256).toNat : ℤ)) = n % 256 from by omega]

/-- The `x & 255` mask on a natural value, in natural-number form. -/
theorem jsAnd_255_nat (n : ℕ) :
    jsAnd (Value.num (n : ℚ)) (Value.num 255) = Value.num ((n % 256 : ℕ) : ℚ) := by
  have h : ((n : ℚ)) = ((n : ℤ) : ℚ) := by push_cast; ring
  rw [h, jsAnd_255_int]
  rw [show ((n : ℤ) % 256) = ((n % 256 : ℕ) : ℤ) from by omega]
  norm_cast

/-- JS AND with a small natural left operand, in natural-number form. -/
theorem jsAnd_nat_small (a : ℕ) (ha : a < 2147483648) (v : Value) :
    jsAnd (Value.num (a : ℚ)) v = Value.num ((a &&& toUint32 v : ℕ) : ℚ) := by
  unfold jsAnd
  rw [toUint32_small a (by omega)]
  rw [int32ofU_small _ (lt_of_le_of_lt Nat.and_le_left ha)]
  simp [Value.ofInt]

/-- JS OR of two small operands, in natural-number form. -/
theorem jsOr_nat_small (a : ℕ) (ha : a < 2147483648) (v : Value)
    (hv : toUint32 v < 2147483648) :
    jsOr (Value.num (a : ℚ)) v = Value.num ((a ||| toUint32 v : ℕ) : ℚ) := by
  unfold jsOr
  rw [toUint32_small a (by omega)]
  have hlt : a ||| toUint32 v < 2147483648 := by
    have h := Nat.or_lt_two_pow (n := 31) (by norm_num at ha ⊢; exact ha)
      (by norm_num at hv ⊢; exact hv)
    norm_num at h
    exact h
  rw [int32ofU_small _ hlt]
  simp [Value.ofInt]

/-- Shifting 1 left by a small amount yields the corresponding power of two. -/
theorem jsShl_one (k : ℕ) (hk : k < 31) :
    jsShl (Value.num 1) (Value.num (k : ℚ)) = Value.num ((2 ^ k : ℕ) : ℚ) := by
  have h1 : toUint32 (Value.num 1) = 1 := by
    have h := toUint32_small 1 (by norm_num)
    norm_num at h
    exact h
  have hp : (2 : ℕ) ^ k < 2147483648 := by
    calc (2:ℕ) ^ k < 2 ^ 31 := Nat.pow_lt_pow_right (by norm_num) hk
    _ = 2147483648 := by norm_num
  unfold jsShl
  rw [h1, toUint32_small k (by omega)]
  have hk32 : k % 32 = k := Nat.mod_eq_of_lt (by omega)
  rw [hk32, Nat.shiftLeft_eq, one_mul]
  have hlt : (2 : ℕ) ^ k < 4294967296 := by omega
  rw [Nat.mod_eq_of_lt hlt, int32ofU_small _ hp]
  simp [Value.ofInt]

/-- JS signed right shift of a small natural by a small amount is the natural
right shift. -/
theorem jsShr_nat (m k : ℕ) (hm : m < 2147483648) (hk : k < 31) :
    jsShr (Value.num (m : ℚ)) (Value.num (k : ℚ)) = Value.num ((m >>> k : ℕ) : ℚ) := by
  unfold jsShr toInt32
  rw [toUint32_small m (by omega), toUint32_small k (by omega)]
  have hk32 : k % 32 = k := Nat.mod_eq_of_lt (by omega)
  rw [int32ofU_small m hm, hk32]
  rw [Int.fdiv_eq_ediv _ (by positivity)]
  rw [Nat.shiftRight_eq_div_pow]
  unfold Value.ofInt
  congr 1
  rw [show ((2:ℤ) ^ k) = (((2 ^ k : ℕ) : ℤ)) from by push_cast; ring]
  rw [← Int.natCast_div]
  norm_cast

/-- Reading the key just written. -/
theorem setFn_same (f : Value → Value) (k v : Value) : setFn f k v k = v := by
  simp [setFn]

/-- Reading a different key. -/
theorem setFn_other (f : Value → Value) (k v x : Value) (h : x ≠ k) :
    setFn f k v x = f x := by
  simp [setFn, h]

@[simp] theorem setReg_ram (s : CPU) (i v : Value) : (s.setReg i v).ram = s.ram := rfl

@[simp] theorem setReg_PC (s : CPU) (i v : Value) : (s.setReg i v).PC = s.PC := rfl

@[simp] theorem setReg_IR (s : CPU) (i v : Value) : (s.setReg i v).IR = s.IR := rfl

@[simp] theorem setReg_FL (s : CPU) (i v : Value) : (s.setReg i v).FL = s.FL := rfl

@[simp] theorem setReg_halted (s : CPU) (i v : Value) : (s.setReg i v).halted = s.halted := rfl

@[simp] theorem setReg_output (s : CPU) (i v : Value) : (s.setReg i v).output = s.output := rfl

@[simp] theorem setReg_log (s : CPU) (i v : Value) : (s.setReg i v).log = s.log := rfl

@[simp] theorem setReg_reg (s : CPU) (i v : Value) : (s.setReg i v).reg = setFn s.reg i v := rfl

@[simp] theorem ramWrite_reg (s : CPU) (a v : Value) : (s.ramWrite a v).reg = s.reg := rfl

@[simp] theorem ramWrite_PC (s : CPU) (a v : Value) : (s.ramWrite a v).PC = s.PC := rfl

@[simp] theorem ramWrite_IR (s : CPU) (a v : Value) : (s.ramWrite a v).IR = s.IR := rfl

@[simp] theorem ramWrite_FL (s : CPU) (a v : Value) : (s.ramWrite a v).FL = s.FL := rfl

@[simp] theorem ramWrite_halted (s : CPU) (a v : Value) :
    (s.ramWrite a v).halted = s.halted := rfl

@[simp] theorem ramWrite_output (s : CPU) (a v : Value) :
    (s.ramWrite a v).output = s.output := rfl

@[simp] theorem ramWrite_log (s : CPU) (a v : Value) : (s.ramWrite a v).log = s.log := rfl

@[simp] theorem ramWrite_ram (s : CPU) (a v : Value) :
    (s.ramWrite a v).ram = setFn s.ram a v := rfl

@[simp] theorem setFlag_reg (s : CPU) (k : ℕ) (b : Bool) : (s.setFlag k b).reg = s.reg := by
  unfold CPU.setFlag
  split <;> rfl

@[simp] theorem setFlag_ram (s : CPU) (k : ℕ) (b : Bool) : (s.setFlag k b).ram = s.ram := by
  unfold CPU.setFlag
  split <;> rfl

@[simp] theorem setFlag_PC (s : CPU) (k : ℕ) (b : Bool) : (s.setFlag k b).PC = s.PC := by
  unfold CPU.setFlag
  split <;> rfl

@[simp] theorem setFlag_IR (s : CPU) (k : ℕ) (b : Bool) : (s.setFlag k b).IR = s.IR := by
  unfold CPU.setFlag
  split <;> rfl

@[simp] theorem setFlag_halted (s : CPU) (k : ℕ) (b : Bool) :
    (s.setFlag k b).halted = s.halted := by
  unfold CPU.setFlag
  split <;> rfl

@[simp] theorem setFlag_output (s : CPU) (k : ℕ) (b : Bool) :
    (s.setFlag k b).output = s.output := by
  unfold CPU.setFlag
  split <;> rfl

@[simp] theorem setFlag_log (s : CPU) (k : ℕ) (b : Bool) : (s.setFlag k b).log = s.log := by
  unfold CPU.setFlag
  split <;> rfl

/-- The flags register after `setFlag`, in natural-number form: setting ORs in
the bit, clearing ANDs with the complement mask. -/
theorem setFlag_FL (s : CPU) (f : ℕ) (hf : f < 2147483648)
    (hFL : s.FL = Value.num (f : ℚ)) (k : ℕ) (hk : k < 31) (b : Bool) :
    (s.setFlag k b).FL =
      (if b then Value.num ((f ||| 2 ^ k : ℕ) : ℚ)
       else Value.num ((f &&& (4294967295 - 2 ^ k) : ℕ) : ℚ)) := by
  have hxor : ∀ j, j < 31 → 2 ^ j ^^^ 4294967295 = 4294967295 - 2 ^ j := by decide
  have hp : (2 : ℕ) ^ k < 2147483648 := by
    calc (2:ℕ) ^ k < 2 ^ 31 := Nat.pow_lt_pow_right (by norm_num) hk
    _ = 2147483648 := by norm_num
  unfold CPU.setFlag
  cases b with
  | true =>
      simp only [if_true]
      rw [hFL, jsShl_one k hk]
      rw [jsOr_nat_small f hf _ (by rw [toUint32_small _ (by omega)]; omega)]
      rw [toUint32_small _ (by omega)]
  | false =>
      simp only [Bool.false_eq_true, if_false]
      rw [hFL, jsShl_one k hk]
      have hnot : jsNot (Value.num ((2 ^ k : ℕ) : ℚ)) =
          Value.num ((((4294967295 - 2 ^ k : ℕ) : ℤ) - 4294967296 : ℤ) : ℚ) := by
        unfold jsNot
        rw [toUint32_small _ (by omega), hxor k hk]
        unfold int32ofU
        rw [if_neg (by omega)]
        unfold Value.ofInt
        norm_num
      rw [hnot]
      rw [jsAnd_nat_small f hf]
      have hgen : ∀ x : ℕ, x ≤ 4294967295 → (((x : ℤ) - 4294967296) % 4294967296).toNat = x := by
        intro x hx
        omega
      have ht : toUint32 (Value.num ((((4294967295 - 2 ^ k : ℕ) : ℤ) - 4294967296 : ℤ) : ℚ))
          = 4294967295 - 2 ^ k := by
        rw [toUint32_int]
        exact hgen _ (Nat.sub_le _ _)
      rw [ht]

/-- Reading a flag bit: `getFlag` is truthy exactly when the corresponding bit
of the flags register is set. -/
theorem getFlag_testBit (s : CPU) (f : ℕ) (hf : f < 2147483648)
    (hFL : s.FL = Value.num (f : ℚ)) (k : ℕ) (hk : k < 31) :
    truthy (s.getFlag k) = f.testBit k := by
  have hp : (2 : ℕ) ^ k < 2147483648 := by
    calc (2:ℕ) ^ k < 2 ^ 31 := Nat.pow_lt_pow_right (by norm_num) hk
    _ = 2147483648 := by norm_num
  unfold CPU.getFlag
  rw [hFL, jsShl_one k hk, jsAnd_nat_small f hf]
  rw [toUint32_small _ (by omega)]
  rw [jsShr_nat _ k (lt_of_le_of_lt Nat.and_le_right hp) hk]
  rw [Nat.and_two_pow, Nat.shiftRight_eq_div_pow, Nat.mul_div_cancel _ (by positivity)]
  cases hb : f.testBit k <;> simp [truthy, hb]

/-- The source's `(x - 1) & 255` decrement on an integer value. -/
theorem jsDec_255 (n : ℤ) :
    jsAnd (jsSub (Value.num (n : ℚ)) (Value.num 1)) (Value.num 255) =
      Value.num (((n - 1) % 256 : ℤ) : ℚ) := by
  rw [show jsSub (Value.num (n : ℚ)) (Value.num 1) = Value.num ((n : ℚ) - 1) from rfl]
  rw [show ((n : ℚ) - 1) = (((n - 1 : ℤ)) : ℚ) from by push_cast; ring]
  exact jsAnd_255_int (n - 1)

/-- The source's `(x + 1) & 255` increment on an integer value. -/
theorem jsInc_255 (n : ℤ) :
    jsAnd (jsAdd (Value.num (n : ℚ)) (Value.num 1)) (Value.num 255) =
      Value.num (((n + 1) % 256 : ℤ) : ℚ) := by
  rw [show jsAdd (Value.num (n : ℚ)) (Value.num 1) = Value.num ((n : ℚ) + 1) from rfl]
  rw [show ((n : ℚ) + 1) = (((n + 1 : ℤ)) : ℚ) from by push_cast; ring]
  exact jsAnd_255_int (n + 1)

/-- No instruction handler writes the instruction register. -/
theorem execInstr_IR (s : CPU) (i : Instr) (a b : Value) :
    (s.execInstr i a b).1.IR = s.IR := by
  cases i <;>
    simp [CPU.execInstr, CPU.alu, CPU._push, CPU._pop, apply_ite (CPU.IR)]

/-- No instruction handler writes the program counter. -/
theorem execInstr_PC (s : CPU) (i : Instr) (a b : Value) :
    (s.execInstr i a b).1.PC = s.PC := by
  cases i <;>
    simp [CPU.execInstr, CPU.alu, CPU._push, CPU._pop, apply_ite (CPU.PC)]

/-- C7: for all register values (a, b), the ALU's ADD, SUB and MUL write
`(a OP b) mod 256` into the first operand register, and INC/DEC write the
mod-256 unary result (so 255 increments to 0 and 0 decrements to 255). -/
theorem c7_alu_arithmetic_wraps (s : CPU) (i j : Value) (a b : ℕ)
    (hi : s.reg i = Value.num (a : ℚ)) (hj : s.reg j = Value.num (b : ℚ)) :
    (s.alu .ADD i j).reg i = Value.num (((a + b) % 256 : ℕ) : ℚ) ∧
    (s.alu .SUB i j).reg i = Value.num ((((a : ℤ) - (b : ℤ)) % 256 : ℤ) : ℚ) ∧
    (s.alu .MUL i j).reg i = Value.num (((a * b) % 256 : ℕ) : ℚ) ∧
    (s.alu .INC i .undef).reg i = Value.num (((a + 1) % 256 : ℕ) : ℚ) ∧
    (s.alu .DEC i .undef).reg i = Value.num ((((a : ℤ) - 1) % 256 : ℤ) : ℚ) := by
  refine ⟨?_, ?_, ?_, ?_, ?_⟩
  · simp only [CPU.alu, CPU.getReg, hi, hj, setReg_reg]
    rw [setFn_same]
    rw [show jsAdd (Value.num (a : ℚ)) (Value.num (b : ℚ)) = Value.num ((a : ℚ) + (b : ℚ))
      from rfl]
    rw [show ((a : ℚ) + (b : ℚ)) = (((a + b : ℕ)) : ℚ) from by push_cast; ring]
    exact jsAnd_255_nat (a + b)
  · simp only [CPU.alu, CPU.getReg, hi, hj, setReg_reg]
    rw [setFn_same]
    rw [show jsSub (Value.num (a : ℚ)) (Value.num (b : ℚ)) = Value.num ((a : ℚ) - (b : ℚ))
      from rfl]
    rw [show ((a : ℚ) - (b : ℚ)) = ((((a : ℤ) - (b : ℤ) : ℤ)) : ℚ) from by push_cast; ring]
    exact jsAnd_255_int _
  · simp only [CPU.alu, CPU.getReg, hi, hj, setReg_reg]
    rw [setFn_same]
    rw [show jsMul (Value.num (a : ℚ)) (Value.num (b : ℚ)) = Value.num ((a : ℚ) * (b : ℚ))
      from rfl]
    rw [show ((a : ℚ) * (b : ℚ)) = (((a * b : ℕ)) : ℚ) from by push_cast; ring]
    exact jsAnd_255_nat (a * b)
  · simp only [CPU.alu, CPU.getReg, hi, setReg_reg]
    rw [setFn_same]
    rw [show jsAdd (Value.num (a : ℚ)) (Value.num 1) = Value.num ((a : ℚ) + 1) from rfl]
    rw [show ((a : ℚ) + 1) = (((a + 1 : ℕ)) : ℚ) from by push_cast; ring]
    exact jsAnd_255_nat (a + 1)
  · simp only [CPU.alu, CPU.getReg, hi, setReg_reg]
    rw [setFn_same]
    exact jsDec_255 (a : ℤ)

/-- C7 witness at register values 10 and 3. -/
theorem c7_alu_arithmetic_wraps_witness :
    (witnessState.reg (Value.num 0) = Value.num ((10 : ℕ) : ℚ) ∧
     witnessState.reg (Value.num 1) = Value.num ((3 : ℕ) : ℚ)) ∧
    ((witnessState.alu .ADD (Value.num 0) (Value.num 1)).reg (Value.num 0) =
        Value.num (((10 + 3) % 256 : ℕ) : ℚ) ∧
     (witnessState.alu .SUB (Value.num 0) (Value.num 1)).reg (Value.num 0) =
        Value.num ((((10 : ℤ) - (3 : ℤ)) % 256 : ℤ) : ℚ) ∧
     (witnessState.alu .MUL (Value.num 0) (Value.num 1)).reg (Value.num 0) =
        Value.num (((10 * 3) % 256 : ℕ) : ℚ) ∧
     (witnessState.alu .INC (Value.num 0) .undef).reg (Value.num 0) =
        Value.num (((10 + 1) % 256 : ℕ) : ℚ) ∧
     (witnessState.alu .DEC (Value.num 0) .undef).reg (Value.num 0) =
        Value.num ((((10 : ℤ) - 1) % 256 : ℤ) : ℚ)) :=
  ⟨⟨by decide, by decide⟩,
    c7_alu_arithmetic_wraps witnessState (Value.num 0) (Value.num 1) 10 3
      (by decide) (by decide)⟩

set_option maxRecDepth 8192 in
set_option maxHeartbeats 2000000 in
/-- Naturals up to 255 are binary64-representable, so rounding returns them
unchanged. -/
theorem roundB64_nat_byte : ∀ n : ℕ, n ≤ 255 → roundB64 ((n : ℚ)) = Value.num ((n : ℚ)) := by
  with_unfolding_all decide

/-- C2 counterexample: dividing register values 10 by 3, the program stores
the binary64 rounding 7505999378950827/2251799813685248 (displayed as
3.3333333333333335), which is not the mathematical quotient 10/3. -/
theorem c2_div_exact_counterexample :
    witnessState.reg (Value.num 0) = Value.num 10 ∧
    witnessState.reg (Value.num 1) = Value.num 3 ∧
    (witnessState.alu .DIV (Value.num 0) (Value.num 1)).reg (Value.num 0) =
      Value.num (7505999378950827 / 2251799813685248) ∧
    (witnessState.alu .DIV (Value.num 0) (Value.num 1)).reg (Value.num 0) ≠
      Value.num ((10 : ℚ) / 3) := by
  refine ⟨by decide, by decide, ?_, ?_⟩
  · with_unfolding_all rfl
  · with_unfolding_all decide

/-- C2 (amended): for 8-bit register values (a, b) with b nonzero, the ALU
DIV writes the IEEE-754 binary64 rounding of the quotient a/b into the first
operand register — the exact quotient whenever b divides a — and MOD writes
the unmodified mathematical remainder; neither result is masked to 8 bits. -/
theorem c2_div_rounded (s : CPU) (i j : Value) (a b : ℕ) (ha : a ≤ 255) (hb255 : b ≤ 255)
    (hb : b ≠ 0) (hi : s.reg i = Value.num (a : ℚ)) (hj : s.reg j = Value.num (b : ℚ)) :
    (s.alu .DIV i j).reg i = roundB64 ((a : ℚ) / (b : ℚ)) ∧
    (b ∣ a → (s.alu .DIV i j).reg i = Value.num ((a / b : ℕ) : ℚ)) ∧
    (s.alu .MOD i j).reg i = Value.num ((a % b : ℕ) : ℚ) := by
  have hbq : ((b : ℚ)) ≠ 0 := by exact_mod_cast hb
  have hdiv : (s.alu .DIV i j).reg i = roundB64 ((a : ℚ) / (b : ℚ)) := by
    simp only [CPU.alu, CPU.getReg, hi, hj, setReg_reg]
    rw [setFn_same]
    simp only [jsDiv]
    rw [if_neg hbq]
  refine ⟨hdiv, ?_, ?_⟩
  · intro hdvd
    rw [hdiv, show ((a : ℚ) / (b : ℚ)) = ((a / b : ℕ) : ℚ) from (Nat.cast_div hdvd hbq).symm]
    exact roundB64_nat_byte (a / b) (le_trans (Nat.div_le_self a b) ha)
  · simp only [CPU.alu, CPU.getReg, hi, hj, setReg_reg]
    rw [setFn_same]
    simp only [jsMod]
    rw [if_neg hbq]
    congr 1
    have hq : qtrunc ((a : ℚ) / (b : ℚ)) = ((a / b : ℕ) : ℤ) := by
      unfold qtrunc
      rw [if_neg (not_lt.mpr (by positivity))]
      rw [show ((a : ℚ) / (b : ℚ)) = (((a : ℤ) : ℚ) / ((b : ℕ) : ℚ)) from by push_cast; ring]
      rw [Rat.floor_intCast_div_natCast, ← Int.natCast_div]
    rw [hq]
    have h := Nat.div_add_mod a b
    have hc : ((a : ℚ)) = (b : ℚ) * ((a / b : ℕ) : ℚ) + ((a % b : ℕ) : ℚ) := by
      exact_mod_cast h.symm
    rw [show ((((a / b : ℕ) : ℤ)) : ℚ) = ((a / b : ℕ) : ℚ) from Int.cast_natCast _]
    linarith

/-- C2 witness at register values 10 and 10 (where the quotient is exact). -/
theorem c2_div_rounded_witness :
    ((10 : ℕ) ≤ 255 ∧ (10 : ℕ) ≠ 0 ∧
     witnessState.reg (Value.num 0) = Value.num ((10 : ℕ) : ℚ)) ∧
    ((witnessState.alu .DIV (Value.num 0) (Value.num 0)).reg (Value.num 0) =
        roundB64 ((10 : ℚ) / (10 : ℚ)) ∧
     ((10 : ℕ) ∣ 10 →
       (witnessState.alu .DIV (Value.num 0) (Value.num 0)).reg (Value.num 0) =
         Value.num ((10 / 10 : ℕ) : ℚ)) ∧
     (witnessState.alu .MOD (Value.num 0) (Value.num 0)).reg (Value.num 0) =
        Value.num ((10 % 10 : ℕ) : ℚ)) :=
  ⟨⟨by decide, by decide, by decide⟩,
    c2_div_rounded witnessState (Value.num 0) (Value.num 0) 10 10 (by decide) (by decide)
      (by decide) (by decide) (by decide)⟩

set_option maxRecDepth 4096 in
/-- C9: the ALU NOT writes the unmasked bitwise complement of an 8-bit
register value, which is the negative number -(v+1): the stored result is
never an 8-bit byte. -/
theorem c9_alu_not_unmasked (s : CPU) (i : Value) (v : ℕ) (hv : v ≤ 255)
    (hi : s.reg i = Value.num (v : ℚ)) :
    (s.alu .NOT i .undef).reg i = Value.num (-(v : ℚ) - 1) ∧ -(v : ℚ) - 1 < 0 := by
  constructor
  · simp only [CPU.alu, CPU.getReg, hi, setReg_reg]
    rw [setFn_same]
    unfold jsNot
    rw [toUint32_small v (by omega)]
    have hx : ∀ w : ℕ, w < 256 → w ^^^ 4294967295 = 4294967295 - w := by decide
    rw [hx v (by omega)]
    unfold int32ofU
    rw [if_neg (by omega)]
    unfold Value.ofInt
    congr 1
    rw [show ((((4294967295 - v : ℕ) : ℤ)) - 4294967296) = -(v : ℤ) - 1 from by omega]
    push_cast
    ring
  · have : (0 : ℚ) ≤ (v : ℚ) := by positivity
    linarith

/-- C9 witness at register value 10. -/
theorem c9_alu_not_unmasked_witness :
    ((10 : ℕ) ≤ 255 ∧ witnessState.reg (Value.num 0) = Value.num ((10 : ℕ) : ℚ)) ∧
    ((witnessState.alu .NOT (Value.num 0) .undef).reg (Value.num 0) =
        Value.num (-(10 : ℚ) - 1) ∧ -(10 : ℚ) - 1 < 0) :=
  ⟨⟨by decide, by decide⟩,
    by
      have h := c9_alu_not_unmasked witnessState (Value.num 0) 10 (by decide) (by decide)
      exact_mod_cast h⟩

/-- C6: a tick that fetches an opcode with no branch-table entry logs the
invalid instruction and halts; the program counter keeps its pre-tick value
and no register, RAM cell or output changes. -/
theorem c6_invalid_opcode_halts (s : CPU) (hdec : decode (s.ram s.PC) = none) :
    s.tick.PC = s.PC ∧ s.tick.halted = true ∧
    s.tick.log = s.log ++ [LogMsg.invalidInstruction (s.ram s.PC)] ∧
    s.tick.reg = s.reg ∧ s.tick.ram = s.ram ∧ s.tick.output = s.output := by
  unfold CPU.tick
  simp [hdec]

/-- C6 witness: opcode byte 2 is absent from the branch table. -/
theorem c6_invalid_opcode_halts_witness :
    decode (invalidOpcodeState.ram invalidOpcodeState.PC) = none ∧
    (invalidOpcodeState.tick.PC = invalidOpcodeState.PC ∧
     invalidOpcodeState.tick.halted = true ∧
     invalidOpcodeState.tick.log = invalidOpcodeState.log ++
       [LogMsg.invalidInstruction (invalidOpcodeState.ram invalidOpcodeState.PC)] ∧
     invalidOpcodeState.tick.reg = invalidOpcodeState.reg ∧
     invalidOpcodeState.tick.ram = invalidOpcodeState.ram ∧
     invalidOpcodeState.tick.output = invalidOpcodeState.output) :=
  ⟨by decide, c6_invalid_opcode_halts invalidOpcodeState (by decide)⟩

/-- Closure of the 31-bit bound under OR. -/
theorem or_small (x y : ℕ) (hx : x < 2147483648) (hy : y < 2147483648) :
    x ||| y < 2147483648 := by
  have h : x ||| y < 2 ^ 31 := Nat.or_lt_two_pow (by norm_num; omega) (by norm_num; omega)
  norm_num at h
  exact h

/-- C8: CMP sets exactly one of the EQUAL (bit 0), GREATER-THAN (bit 1) and
LESS-THAN (bit 2) flags under an unsigned comparison, with EQUAL true iff the
operands are equal, and mutates no register. -/
theorem c8_cmp_flags (s : CPU) (i j : Value) (a b f : ℕ) (hf : f < 2147483648)
    (hi : s.reg i = Value.num (a : ℚ)) (hj : s.reg j = Value.num (b : ℚ))
    (hFL : s.FL = Value.num (f : ℚ)) :
    (truthy ((s.alu .CMP i j).getFlag 0) = decide (a = b)) ∧
    (truthy ((s.alu .CMP i j).getFlag 1) = decide (b < a)) ∧
    (truthy ((s.alu .CMP i j).getFlag 2) = decide (a < b)) ∧
    ((truthy ((s.alu .CMP i j).getFlag 0)).toNat +
      (truthy ((s.alu .CMP i j).getFlag 1)).toNat +
      (truthy ((s.alu .CMP i j).getFlag 2)).toNat = 1) ∧
    (s.alu .CMP i j).reg = s.reg := by
  have he' : jsStrictEq (Value.num (a : ℚ)) (Value.num (b : ℚ)) = decide (a = b) := by
    simp [jsStrictEq]
  have hg' : jsGt (Value.num (a : ℚ)) (Value.num (b : ℚ)) = decide (b < a) := by
    simp [jsGt, jsLt]
  have hl' : jsLt (Value.num (a : ℚ)) (Value.num (b : ℚ)) = decide (a < b) := by
    simp [jsLt]
  have hstate : s.alu .CMP i j =
      ((s.setFlag 0 (decide (a = b))).setFlag 1 (decide (b < a))).setFlag 2
        (decide (a < b)) := by
    simp only [CPU.alu, CPU.getReg, setFlag_reg, hi, hj, he', hg', hl']
  have hreg : (s.alu .CMP i j).reg = s.reg := by
    rw [hstate]
    simp
  have t40 : Nat.testBit 4 0 = false := by decide
  have t41 : Nat.testBit 4 1 = false := by decide
  have t42 : Nat.testBit 4 2 = true := by decide
  have t10 : Nat.testBit 1 0 = true := by decide
  have t11 : Nat.testBit 1 1 = false := by decide
  have t12 : Nat.testBit 1 2 = false := by decide
  have t20 : Nat.testBit 2 0 = false := by decide
  have t21 : Nat.testBit 2 1 = true := by decide
  have t22 : Nat.testBit 2 2 = false := by decide
  have tA0 : Nat.testBit 4294967294 0 = false := by decide
  have tA1 : Nat.testBit 4294967294 1 = true := by decide
  have tA2 : Nat.testBit 4294967294 2 = true := by decide
  have tB0 : Nat.testBit 4294967293 0 = true := by decide
  have tB1 : Nat.testBit 4294967293 1 = false := by decide
  have tB2 : Nat.testBit 4294967293 2 = true := by decide
  have tC0 : Nat.testBit 4294967291 0 = true := by decide
  have tC1 : Nat.testBit 4294967291 1 = true := by decide
  have tC2 : Nat.testBit 4294967291 2 = false := by decide
  rcases Nat.lt_trichotomy a b with hab | hab | hab
  · have hd0 : decide (a = b) = false := decide_eq_false (by omega)
    have hd1 : decide (b < a) = false := decide_eq_false (by omega)
    have hd2 : decide (a < b) = true := decide_eq_true hab
    rw [hd0, hd1, hd2] at hstate
    have h1 := setFlag_FL s f hf hFL 0 (by norm_num) false
    norm_num at h1
    have b1 : f &&& 4294967294 < 2147483648 := lt_of_le_of_lt Nat.and_le_left hf
    have h2 := setFlag_FL (s.setFlag 0 false) _ b1 h1 1 (by norm_num) false
    norm_num at h2
    have b2 : (f &&& 4294967294) &&& 4294967293 < 2147483648 :=
      lt_of_le_of_lt Nat.and_le_left b1
    have h3 := setFlag_FL ((s.setFlag 0 false).setFlag 1 false) _ b2 h2 2 (by norm_num) true
    norm_num at h3
    have b3 : ((f &&& 4294967294) &&& 4294967293) ||| 4 < 2147483648 :=
      or_small _ _ b2 (by norm_num)
    have e0 : truthy ((s.alu .CMP i j).getFlag 0) = decide (a = b) := by
      rw [hstate, getFlag_testBit _ _ b3 h3 0 (by norm_num), hd0]
      simp [tA0, tB0, t40]
    have e1 : truthy ((s.alu .CMP i j).getFlag 1) = decide (b < a) := by
      rw [hstate, getFlag_testBit _ _ b3 h3 1 (by norm_num), hd1]
      simp [tB1, t41]
    have e2 : truthy ((s.alu .CMP i j).getFlag 2) = decide (a < b) := by
      rw [hstate, getFlag_testBit _ _ b3 h3 2 (by norm_num), hd2]
      simp [t42]
    refine ⟨e0, e1, e2, ?_, hreg⟩
    rw [e0, e1, e2, hd0, hd1, hd2]
    rfl
  · have hd0 : decide (a = b) = true := decide_eq_true hab
    have hd1 : decide (b < a) = false := decide_eq_false (by omega)
    have hd2 : decide (a < b) = false := decide_eq_false (by omega)
    rw [hd0, hd1, hd2] at hstate
    have h1 := setFlag_FL s f hf hFL 0 (by norm_num) true
    norm_num at h1
    have b1 : f ||| 1 < 2147483648 := or_small _ _ hf (by norm_num)
    have h2 := setFlag_FL (s.setFlag 0 true) _ b1 h1 1 (by norm_num) false
    norm_num at h2
    have b2 : (f ||| 1) &&& 4294967293 < 2147483648 := lt_of_le_of_lt Nat.and_le_left b1
    have h3 := setFlag_FL ((s.setFlag 0 true).setFlag 1 false) _ b2 h2 2 (by norm_num) false
    norm_num at h3
    have b3 : ((f ||| 1) &&& 4294967293) &&& 4294967291 < 2147483648 :=
      lt_of_le_of_lt Nat.and_le_left b2
    have e0 : truthy ((s.alu .CMP i j).getFlag 0) = decide (a = b) := by
      rw [hstate, getFlag_testBit _ _ b3 h3 0 (by norm_num), hd0]
      simp [t10, tB0, tC0]
    have e1 : truthy ((s.alu .CMP i j).getFlag 1) = decide (b < a) := by
      rw [hstate, getFlag_testBit _ _ b3 h3 1 (by norm_num), hd1]
      simp [tB1]
    have e2 : truthy ((s.alu .CMP i j).getFlag 2) = decide (a < b) := by
      rw [hstate, getFlag_testBit _ _ b3 h3 2 (by norm_num), hd2]
      simp [tC2]
    refine ⟨e0, e1, e2, ?_, hreg⟩
    rw [e0, e1, e2, hd0, hd1, hd2]
    rfl
  · have hd0 : decide (a = b) = false := decide_eq_false (by omega)
    have hd1 : decide (b < a) = true := decide_eq_true hab
    have hd2 : decide (a < b) = false := decide_eq_false (by omega)
    rw [hd0, hd1, hd2] at hstate
    have h1 := setFlag_FL s f hf hFL 0 (by norm_num) false
    norm_num at h1
    have b1 : f &&& 4294967294 < 2147483648 := lt_of_le_of_lt Nat.and_le_left hf
    have h2 := setFlag_FL (s.setFlag 0 false) _ b1 h1 1 (by norm_num) true
    norm_num at h2
    have b2 : (f &&& 4294967294) ||| 2 < 2147483648 := or_small _ _ b1 (by norm_num)
    have h3 := setFlag_FL ((s.setFlag 0 false).setFlag 1 true) _ b2 h2 2 (by norm_num) false
    norm_num at h3
    have b3 : ((f &&& 4294967294) ||| 2) &&& 4294967291 < 2147483648 :=
      lt_of_le_of_lt Nat.and_le_left b2
    have e0 : truthy ((s.alu .CMP i j).getFlag 0) = decide (a = b) := by
      rw [hstate, getFlag_testBit _ _ b3 h3 0 (by norm_num), hd0]
      simp [tA0, t20, tC0]
    have e1 : truthy ((s.alu .CMP i j).getFlag 1) = decide (b < a) := by
      rw [hstate, getFlag_testBit _ _ b3 h3 1 (by norm_num), hd1]
      simp [t21, tC1]
    have e2 : truthy ((s.alu .CMP i j).getFlag 2) = decide (a < b) := by
      rw [hstate, getFlag_testBit _ _ b3 h3 2 (by norm_num), hd2]
      simp [tC2]
    refine ⟨e0, e1, e2, ?_, hreg⟩
    rw [e0, e1, e2, hd0, hd1, hd2]
    rfl

/-- C8 witness at register values 10 and 3 with flags register 0. -/
theorem c8_cmp_flags_witness :
    ((0 : ℕ) < 2147483648 ∧
     witnessState.reg (Value.num 0) = Value.num ((10 : ℕ) : ℚ) ∧
     witnessState.reg (Value.num 1) = Value.num ((3 : ℕ) : ℚ) ∧
     witnessState.FL = Value.num ((0 : ℕ) : ℚ)) ∧
    ((truthy ((witnessState.alu .CMP (Value.num 0) (Value.num 1)).getFlag 0) =
        decide ((10 : ℕ) = 3)) ∧
     (truthy ((witnessState.alu .CMP (Value.num 0) (Value.num 1)).getFlag 1) =
        decide ((3 : ℕ) < 10)) ∧
     (truthy ((witnessState.alu .CMP (Value.num 0) (Value.num 1)).getFlag 2) =
        decide ((10 : ℕ) < 3)) ∧
     ((truthy ((witnessState.alu .CMP (Value.num 0) (Value.num 1)).getFlag 0)).toNat +
       (truthy ((witnessState.alu .CMP (Value.num 0) (Value.num 1)).getFlag 1)).toNat +
       (truthy ((witnessState.alu .CMP (Value.num 0) (Value.num 1)).getFlag 2)).toNat = 1) ∧
     (witnessState.alu .CMP (Value.num 0) (Value.num 1)).reg = witnessState.reg) :=
  ⟨⟨by decide, by decide, by decide, by decide⟩,
    c8_cmp_flags witnessState (Value.num 0) (Value.num 1) 10 3 0 (by decide)
      (by decide) (by decide) (by decide)⟩

/-- C3: for every register index r (0-7), every register value, every 8-bit
stack-pointer value and every memory state, `PUSH r` followed by `POP r`
restores both register r and the stack pointer (register 7). -/
theorem c3_push_pop_restores (s : CPU) (r sp : ℕ) (hr : r ≤ 7) (hsp : sp ≤ 255)
    (h7 : s.reg (Value.num 7) = Value.num (sp : ℚ)) :
    ((((s.execInstr .PUSH (Value.num (r : ℚ)) .undef).1).execInstr .POP
        (Value.num (r : ℚ)) .undef).1).reg (Value.num (r : ℚ)) =
      s.reg (Value.num (r : ℚ)) ∧
    ((((s.execInstr .PUSH (Value.num (r : ℚ)) .undef).1).execInstr .POP
        (Value.num (r : ℚ)) .undef).1).reg (Value.num 7) = s.reg (Value.num 7) := by
  have hcast : ((sp : ℕ) : ℚ) = (((sp : ℤ)) : ℚ) := by push_cast; ring
  have hdec : jsAnd (jsSub (Value.num (sp : ℚ)) (Value.num 1)) (Value.num 255) =
      Value.num (((((sp : ℤ) - 1) % 256 : ℤ)) : ℚ) := by
    rw [hcast]
    exact jsDec_255 _
  have hinc : jsAnd (jsAdd (Value.num (((((sp : ℤ) - 1) % 256 : ℤ)) : ℚ)) (Value.num 1))
      (Value.num 255) = Value.num ((sp : ℕ) : ℚ) := by
    rw [jsInc_255 _]
    rw [show (((sp : ℤ) - 1) % 256 + 1) % 256 = (sp : ℤ) from by omega]
    rw [hcast]
  simp only [CPU.execInstr, CPU._push, CPU._pop, CPU.alu, CPU.getReg, setReg_reg,
    setReg_ram, ramWrite_reg, ramWrite_ram]
  rw [h7, hdec]
  rw [setFn_same, setFn_same, setFn_same, hinc]
  by_cases hr7 : r = 7
  · subst hr7
    have h77 : Value.num ((7 : ℕ) : ℚ) = Value.num 7 := by norm_num
    rw [h77]
    exact ⟨rfl, h7⟩
  · have hne : (Value.num 7 : Value) ≠ Value.num ((r : ℕ) : ℚ) := by
      simp only [ne_eq, Value.num.injEq]
      intro hc
      have h7r : (7 : ℕ) = r := by exact_mod_cast hc
      omega
    refine ⟨rfl, ?_⟩
    rw [setFn_other _ _ _ _ hne, setFn_same]

/-- C3 witness at register index 3 and stack pointer 244. -/
theorem c3_push_pop_restores_witness :
    ((3 : ℕ) ≤ 7 ∧ (244 : ℕ) ≤ 255 ∧
     witnessState.reg (Value.num 7) = Value.num ((244 : ℕ) : ℚ)) ∧
    (((((witnessState.execInstr .PUSH (Value.num ((3 : ℕ) : ℚ)) .undef).1).execInstr .POP
        (Value.num ((3 : ℕ) : ℚ)) .undef).1).reg (Value.num ((3 : ℕ) : ℚ)) =
      witnessState.reg (Value.num ((3 : ℕ) : ℚ)) ∧
     ((((witnessState.execInstr .PUSH (Value.num ((3 : ℕ) : ℚ)) .undef).1).execInstr .POP
        (Value.num ((3 : ℕ) : ℚ)) .undef).1).reg (Value.num 7) =
      witnessState.reg (Value.num 7)) :=
  ⟨⟨by decide, by decide, by decide⟩,
    c3_push_pop_restores witnessState 3 244 (by decide) (by decide) (by decide)⟩

/-- A tick whose fetched opcode has a handler: fetch into IR, run the handler
on the two eagerly read operand bytes, then advance. -/
theorem tick_eq (s : CPU) (i : Instr) (hdec : decode (s.ram s.PC) = some i) :
    s.tick =
      (if (({ s with IR := s.ram s.PC } : CPU).execInstr i
            (s.ram (jsAdd s.PC (Value.num 1))) (s.ram (jsAdd s.PC (Value.num 2)))).2 =
          Value.undef
       then { (({ s with IR := s.ram s.PC } : CPU).execInstr i
                (s.ram (jsAdd s.PC (Value.num 1))) (s.ram (jsAdd s.PC (Value.num 2)))).1 with
              PC := jsAdd
                (({ s with IR := s.ram s.PC } : CPU).execInstr i
                  (s.ram (jsAdd s.PC (Value.num 1))) (s.ram (jsAdd s.PC (Value.num 2)))).1.PC
                (jsAdd (jsAnd (jsShr
                  (({ s with IR := s.ram s.PC } : CPU).execInstr i
                    (s.ram (jsAdd s.PC (Value.num 1)))
                    (s.ram (jsAdd s.PC (Value.num 2)))).1.IR (Value.num 6)) (Value.num 3))
                  (Value.num 1)) }
       else { (({ s with IR := s.ram s.PC } : CPU).execInstr i
                (s.ram (jsAdd s.PC (Value.num 1))) (s.ram (jsAdd s.PC (Value.num 2)))).1 with
              PC := (({ s with IR := s.ram s.PC } : CPU).execInstr i
                (s.ram (jsAdd s.PC (Value.num 1))) (s.ram (jsAdd s.PC (Value.num 2)))).2 }) := by
  unfold CPU.tick
  simp only [hdec]

/-- The decoded operand count of a fetched byte, as the source computes it. -/
theorem opCount_byte (w : ℕ) (hw : w ≤ 255) :
    jsAnd (jsShr (Value.num (w : ℚ)) (Value.num 6)) (Value.num 3) =
      Value.num (((w >>> 6) &&& 3 : ℕ) : ℚ) := by
  rw [show (Value.num 6 : Value) = Value.num ((6 : ℕ) : ℚ) from by norm_num]
  rw [jsShr_nat w 6 (by omega) (by omega)]
  have hs : w >>> 6 < 2147483648 := by
    rw [Nat.shiftRight_eq_div_pow]
    norm_num
    omega
  rw [jsAnd_nat_small _ hs]
  rw [show toUint32 (Value.num 3) = 3 from by decide]

/-- On the default-advancement path the new program counter is the old one
plus `1 + operandCount` with the count taken from the fetched byte. -/
theorem tick_PC_default (s : CPU) (w pc : ℕ) (hw : w ≤ 255) (i : Instr)
    (hPC : s.PC = Value.num (pc : ℚ)) (hfetch : s.ram s.PC = Value.num (w : ℚ))
    (hdec : decode (Value.num (w : ℚ)) = some i)
    (hret : (({ s with IR := Value.num (w : ℚ) } : CPU).execInstr i
        (s.ram (jsAdd s.PC (Value.num 1))) (s.ram (jsAdd s.PC (Value.num 2)))).2 =
      Value.undef) :
    s.tick.PC = Value.num ((pc + (((w >>> 6) &&& 3) + 1) : ℕ) : ℚ) := by
  rw [tick_eq s i (by rw [hfetch]; exact hdec)]
  rw [if_pos (by rw [hfetch]; exact hret)]
  rw [hfetch]
  show jsAdd ((({ s with IR := Value.num (w : ℚ) } : CPU).execInstr i
      (s.ram (jsAdd s.PC (Value.num 1))) (s.ram (jsAdd s.PC (Value.num 2)))).1.PC)
    (jsAdd (jsAnd (jsShr ((({ s with IR := Value.num (w : ℚ) } : CPU).execInstr i
      (s.ram (jsAdd s.PC (Value.num 1))) (s.ram (jsAdd s.PC (Value.num 2)))).1.IR)
      (Value.num 6)) (Value.num 3)) (Value.num 1)) = _
  have hIR : (({ s with IR := Value.num (w : ℚ) } : CPU).execInstr i
      (s.ram (jsAdd s.PC (Value.num 1))) (s.ram (jsAdd s.PC (Value.num 2)))).1.IR =
      Value.num (w : ℚ) := execInstr_IR _ i _ _
  have hPCp : (({ s with IR := Value.num (w : ℚ) } : CPU).execInstr i
      (s.ram (jsAdd s.PC (Value.num 1))) (s.ram (jsAdd s.PC (Value.num 2)))).1.PC =
      s.PC := execInstr_PC _ i _ _
  rw [hIR, hPCp, hPC, opCount_byte w hw]
  show Value.num ((pc : ℚ) + ((((w >>> 6) &&& 3 : ℕ) : ℚ) + 1)) = _
  congr 1
  push_cast
  ring

/-- When the handler returns a value, the program counter is set to exactly
that value. -/
theorem tick_PC_return (s : CPU) (i : Instr)
    (hdec : decode (s.ram s.PC) = some i)
    (hret : (({ s with IR := s.ram s.PC } : CPU).execInstr i
        (s.ram (jsAdd s.PC (Value.num 1))) (s.ram (jsAdd s.PC (Value.num 2)))).2 ≠
      Value.undef) :
    s.tick.PC = (({ s with IR := s.ram s.PC } : CPU).execInstr i
        (s.ram (jsAdd s.PC (Value.num 1))) (s.ram (jsAdd s.PC (Value.num 2)))).2 := by
  rw [tick_eq s i hdec, if_neg hret]

/-- C5: on every tick that finds a handler, an explicit returned address
becomes the program counter verbatim; otherwise the counter advances by
`1 + operandCount`, the count decoded as `(opcode >> 6) & 0b11` from the byte
fetched into the instruction register at the start of the tick. -/
theorem c5_advance_rule (s : CPU) (w pc : ℕ) (hw : w ≤ 255) (i : Instr)
    (hPC : s.PC = Value.num (pc : ℚ)) (hfetch : s.ram s.PC = Value.num (w : ℚ))
    (hdec : decode (Value.num (w : ℚ)) = some i) :
    ((({ s with IR := Value.num (w : ℚ) } : CPU).execInstr i
        (s.ram (jsAdd s.PC (Value.num 1))) (s.ram (jsAdd s.PC (Value.num 2)))).2 ≠
          Value.undef →
      s.tick.PC = (({ s with IR := Value.num (w : ℚ) } : CPU).execInstr i
        (s.ram (jsAdd s.PC (Value.num 1))) (s.ram (jsAdd s.PC (Value.num 2)))).2) ∧
    ((({ s with IR := Value.num (w : ℚ) } : CPU).execInstr i
        (s.ram (jsAdd s.PC (Value.num 1))) (s.ram (jsAdd s.PC (Value.num 2)))).2 =
          Value.undef →
      s.tick.PC = Value.num ((pc + (((w >>> 6) &&& 3) + 1) : ℕ) : ℚ)) := by
  constructor
  · intro h
    rw [tick_PC_return s i (by rw [hfetch]; exact hdec) (by rw [hfetch]; exact h)]
    rw [hfetch]
  · intro h
    exact tick_PC_default s w pc hw i hPC hfetch hdec h

/-- C5 witness: a `NOP` tick (no returned address) advances the counter by
exactly one. -/
theorem c5_advance_rule_witness :
    ((0 : ℕ) ≤ 255 ∧ witnessState.PC = Value.num ((0 : ℕ) : ℚ) ∧
     witnessState.ram witnessState.PC = Value.num ((0 : ℕ) : ℚ) ∧
     decode (Value.num ((0 : ℕ) : ℚ)) = some Instr.NOP ∧
     (({ witnessState with IR := Value.num ((0 : ℕ) : ℚ) } : CPU).execInstr Instr.NOP
        (witnessState.ram (jsAdd witnessState.PC (Value.num 1)))
        (witnessState.ram (jsAdd witnessState.PC (Value.num 2)))).2 = Value.undef) ∧
    witnessState.tick.PC = Value.num ((0 + (((0 >>> 6) &&& 3) + 1) : ℕ) : ℚ) :=
  ⟨⟨by decide, by decide, by decide, by decide, by decide⟩,
    (c5_advance_rule witnessState 0 0 (by decide) Instr.NOP (by decide) (by decide)
      (by decide)).2 (by decide)⟩

/-- Every tick loads the instruction register from the byte at the program
counter. -/
theorem tick_IR (s : CPU) : s.tick.IR = s.ram s.PC := by
  unfold CPU.tick
  cases hd : decode (s.ram s.PC) with
  | none => simp [hd]
  | some i => simp [hd, execInstr_IR, apply_ite (CPU.IR)]

/-- C10: the default advancement is an unbounded integer sum with no modular
reduction, so a program counter at 254 under a two-operand opcode moves to
257 and the next fetch reads RAM address 257, outside 0-255. -/
theorem c10_pc_unbounded :
    (∀ (s : CPU) (w pc : ℕ) (i : Instr), w ≤ 255 → s.PC = Value.num (pc : ℚ) →
      s.ram s.PC = Value.num (w : ℚ) → decode (Value.num (w : ℚ)) = some i →
      (({ s with IR := Value.num (w : ℚ) } : CPU).execInstr i
          (s.ram (jsAdd s.PC (Value.num 1))) (s.ram (jsAdd s.PC (Value.num 2)))).2 =
        Value.undef →
      s.tick.PC = Value.num ((pc + (((w >>> 6) &&& 3) + 1) : ℕ) : ℚ)) ∧
    highPCState.tick.PC = Value.num 257 ∧
    highPCState.tick.tick.IR = highPCState.ram (Value.num 257) ∧
    (255 : ℚ) < 257 := by
  have h1 : highPCState.tick.PC = Value.num 257 := by
    have h := tick_PC_default highPCState 153 254 (by norm_num) Instr.LDI (by decide)
      (by decide) (by decide) (by decide)
    rw [h, show (254 + (((153 >>> 6) &&& 3) + 1) : ℕ) = 257 from by decide]
    norm_num
  have h2 : highPCState.tick.ram = highPCState.ram := by
    rw [tick_eq highPCState Instr.LDI (by decide), if_pos (by decide)]
    rfl
  refine ⟨?_, h1, ?_, by norm_num⟩
  · intro s w pc i hw hPC hfetch hdec hret
    exact tick_PC_default s w pc hw i hPC hfetch hdec hret
  · rw [tick_IR, h2, h1]

/-- C10 witness: the universal part applied to the concrete 254-to-257 tick. -/
theorem c10_pc_unbounded_witness :
    ((153 : ℕ) ≤ 255 ∧ highPCState.PC = Value.num ((254 : ℕ) : ℚ) ∧
     highPCState.ram highPCState.PC = Value.num ((153 : ℕ) : ℚ) ∧
     decode (Value.num ((153 : ℕ) : ℚ)) = some Instr.LDI ∧
     (({ highPCState with IR := Value.num ((153 : ℕ) : ℚ) } : CPU).execInstr Instr.LDI
        (highPCState.ram (jsAdd highPCState.PC (Value.num 1)))
        (highPCState.ram (jsAdd highPCState.PC (Value.num 2)))).2 = Value.undef) ∧
    highPCState.tick.PC = Value.num ((254 + (((153 >>> 6) &&& 3) + 1) : ℕ) : ℚ) :=
  ⟨⟨by decide, by decide, by decide, by decide, by decide⟩,
    c10_pc_unbounded.1 highPCState 153 254 Instr.LDI (by decide) (by decide)
      (by decide) (by decide) (by decide)⟩

/-- C1: running `LDI R0,5; LDI R1,0; DIV R0,R1; PRN R0`, the engine logs the
division-by-zero message and is halted before PRN runs, so no output line is
produced; but the handler still performs the division after halting (no early
return in the source), leaving R0 = Infinity instead of its old value 5. -/
theorem c1_div_by_zero_run :
    ((initCPU divZeroProgram).run 10).halted = true ∧
    ((initCPU divZeroProgram).run 10).output = [] ∧
    ((initCPU divZeroProgram).run 10).log = [LogMsg.divByZero] ∧
    ((initCPU divZeroProgram).run 10).reg (Value.num 0) = Value.inf ∧
    Value.inf ≠ Value.num 5 := by
  refine ⟨?_, ?_, ?_, ?_, by decide⟩ <;> with_unfolding_all rfl

/-- C4 counterexample: `CALL R7` at call-site 0 with the stack pointer R7
holding the target address 244: the return address 2 is pushed at 243, but
the program counter becomes 243 (the decremented stack pointer) rather than
the address 244 that R7 held, because the handler reads the target register
only after the push has decremented it. -/
theorem c4_call_r7_counterexample :
    callR7State.reg (Value.num 7) = Value.num 244 ∧
    callR7State.tick.ram (Value.num 243) = Value.num 2 ∧
    callR7State.tick.PC = Value.num 243 ∧
    callR7State.tick.PC ≠ Value.num 244 := by
  refine ⟨by decide, ?_, ?_, ?_⟩
  · with_unfolding_all rfl
  · with_unfolding_all rfl
  · with_unfolding_all decide

/-- C4 (amended): for every call-site pc, 8-bit stack pointer, and target
register OTHER THAN R7, the CALL tick pushes pc+2 at the decremented
stack-pointer address and sets the program counter to the held target
address; a subsequent RET tick (the target's RAM cell being distinct from the
stack slot) sets the program counter back to pc+2. -/
theorem c4_call_ret_roundtrip (s : CPU) (pc sp r target : ℕ)
    (hr : r ≤ 6) (hsp : sp ≤ 255)
    (hPC : s.PC = Value.num (pc : ℚ))
    (h7 : s.reg (Value.num 7) = Value.num (sp : ℚ))
    (hop : s.ram s.PC = Value.num 72)
    (hoperand : s.ram (Value.num ((pc : ℚ) + 1)) = Value.num (r : ℚ))
    (hreg : s.reg (Value.num (r : ℚ)) = Value.num (target : ℚ))
    (hRet : s.ram (Value.num (target : ℚ)) = Value.num 9)
    (hne : ((target : ℕ) : ℚ) ≠ ((((sp : ℤ) - 1) % 256 : ℤ) : ℚ)) :
    s.tick.PC = Value.num (target : ℚ) ∧
    s.tick.ram (Value.num (((((sp : ℤ) - 1) % 256 : ℤ)) : ℚ)) =
      Value.num ((pc : ℚ) + 2) ∧
    s.tick.tick.PC = Value.num ((pc : ℚ) + 2) := by
  have hcast : ((sp : ℕ) : ℚ) = (((sp : ℤ)) : ℚ) := by push_cast; ring
  have hdec1 : decode (s.ram s.PC) = some Instr.CALL := by
    rw [hop]
    decide
  have hnekey : Value.num ((target : ℕ) : ℚ) ≠
      Value.num (((((sp : ℤ) - 1) % 256 : ℤ)) : ℚ) := by
    simp only [ne_eq, Value.num.injEq]
    exact hne
  have hner7 : Value.num ((r : ℕ) : ℚ) ≠ Value.num 7 := by
    simp only [ne_eq, Value.num.injEq]
    intro hc
    have hr7 : r = 7 := by exact_mod_cast hc
    omega
  have hopA : s.ram (jsAdd s.PC (Value.num 1)) = Value.num ((r : ℕ) : ℚ) := by
    rw [hPC]
    rw [show jsAdd (Value.num (pc : ℚ)) (Value.num 1) = Value.num ((pc : ℚ) + 1) from rfl]
    exact hoperand
  have hdecval : jsAnd (jsSub (s.reg (Value.num 7)) (Value.num 1)) (Value.num 255) =
      Value.num (((((sp : ℤ) - 1) % 256 : ℤ)) : ℚ) := by
    rw [h7, hcast]
    exact jsDec_255 _
  have hp2 : (({ s with IR := s.ram s.PC } : CPU).execInstr Instr.CALL
      (s.ram (jsAdd s.PC (Value.num 1))) (s.ram (jsAdd s.PC (Value.num 2)))).2 =
      Value.num ((target : ℕ) : ℚ) := by
    simp only [CPU.execInstr, CPU._push, CPU.alu, CPU.getReg, setReg_reg, ramWrite_reg]
    rw [hopA, hdecval, setFn_other _ _ _ _ hner7, hreg]
  have hp2ne : (({ s with IR := s.ram s.PC } : CPU).execInstr Instr.CALL
      (s.ram (jsAdd s.PC (Value.num 1))) (s.ram (jsAdd s.PC (Value.num 2)))).2 ≠
      Value.undef := by
    rw [hp2]
    simp
  have hPC1 : s.tick.PC = Value.num ((target : ℕ) : ℚ) := by
    rw [tick_PC_return s Instr.CALL hdec1 hp2ne]
    exact hp2
  have hram1 : s.tick.ram =
      setFn s.ram (Value.num (((((sp : ℤ) - 1) % 256 : ℤ)) : ℚ))
        (Value.num ((pc : ℚ) + 2)) := by
    rw [tick_eq s Instr.CALL hdec1, if_neg hp2ne]
    show (({ s with IR := s.ram s.PC } : CPU).execInstr Instr.CALL
      (s.ram (jsAdd s.PC (Value.num 1))) (s.ram (jsAdd s.PC (Value.num 2)))).1.ram = _
    simp only [CPU.execInstr, CPU._push, CPU.alu, CPU.getReg, setReg_reg, setReg_ram,
      ramWrite_ram]
    rw [hdecval, setFn_same, hPC]
    rw [show jsAdd (Value.num (pc : ℚ)) (Value.num 2) = Value.num ((pc : ℚ) + 2) from rfl]
  have hreg1 : s.tick.reg (Value.num 7) =
      Value.num (((((sp : ℤ) - 1) % 256 : ℤ)) : ℚ) := by
    rw [tick_eq s Instr.CALL hdec1, if_neg hp2ne]
    show (({ s with IR := s.ram s.PC } : CPU).execInstr Instr.CALL
      (s.ram (jsAdd s.PC (Value.num 1))) (s.ram (jsAdd s.PC (Value.num 2)))).1.reg
        (Value.num 7) = _
    simp only [CPU.execInstr, CPU._push, CPU.alu, CPU.getReg, setReg_reg, ramWrite_reg]
    rw [hdecval, setFn_same]
  refine ⟨hPC1, ?_, ?_⟩
  · rw [hram1, setFn_same]
  · have hdec2 : decode (s.tick.ram s.tick.PC) = some Instr.RET := by
      rw [hram1, hPC1, setFn_other _ _ _ _ hnekey, hRet]
      decide
    have hv : (({ s.tick with IR := s.tick.ram s.tick.PC } : CPU).execInstr Instr.RET
        (s.tick.ram (jsAdd s.tick.PC (Value.num 1)))
        (s.tick.ram (jsAdd s.tick.PC (Value.num 2)))).2 = Value.num ((pc : ℚ) + 2) := by
      simp only [CPU.execInstr, CPU._pop, CPU.getReg]
      rw [hreg1, hram1, setFn_same]
    have hvne : (({ s.tick with IR := s.tick.ram s.tick.PC } : CPU).execInstr Instr.RET
        (s.tick.ram (jsAdd s.tick.PC (Value.num 1)))
        (s.tick.ram (jsAdd s.tick.PC (Value.num 2)))).2 ≠ Value.undef := by
      rw [hv]
      simp
    rw [tick_PC_return s.tick Instr.RET hdec2 hvne]
    exact hv

/-- C4 witness for the amended round trip: `CALL R0` at address 0 targeting
the `RET` at address 100 with stack pointer 244. -/
theorem c4_call_ret_roundtrip_witness :
    ((0 : ℕ) ≤ 6 ∧ (244 : ℕ) ≤ 255 ∧
     callRetState.PC = Value.num ((0 : ℕ) : ℚ) ∧
     callRetState.reg (Value.num 7) = Value.num ((244 : ℕ) : ℚ) ∧
     callRetState.ram callRetState.PC = Value.num 72 ∧
     callRetState.ram (Value.num (((0 : ℕ) : ℚ) + 1)) = Value.num ((0 : ℕ) : ℚ) ∧
     callRetState.reg (Value.num ((0 : ℕ) : ℚ)) = Value.num ((100 : ℕ) : ℚ) ∧
     callRetState.ram (Value.num ((100 : ℕ) : ℚ)) = Value.num 9 ∧
     (((100 : ℕ) : ℚ) ≠ ((((244 : ℤ) - 1) % 256 : ℤ) : ℚ))) ∧
    (callRetState.tick.PC = Value.num ((100 : ℕ) : ℚ) ∧
     callRetState.tick.ram (Value.num ((((244 : ℤ) - 1) % 256 : ℤ) : ℚ)) =
       Value.num (((0 : ℕ) : ℚ) + 2) ∧
     callRetState.tick.tick.PC = Value.num (((0 : ℕ) : ℚ) + 2)) :=
  ⟨⟨by decide, by decide, by decide, by decide, by decide,
    by with_unfolding_all decide, by decide, by decide, by with_unfolding_all decide⟩,
    c4_call_ret_roundtrip callRetState 0 244 0 100 (by decide) (by decide) (by decide)
      (by decide) (by decide) (by with_unfolding_all decide) (by decide) (by decide)
      (by with_unfolding_all decide)⟩

end LS8
